import Mathlib

/-!
Verification development for the blueberry-browser agent core.

Shallow embedding of the agent loop (`AgentManager.runExecutionLoop` and the
lifecycle operations), the planning-response parser (`AgentPlanner.parseResponse`,
`shouldGiveUp`), the action executor (`AgentExecutor.executeAction`,
`executeClick`/`executeType`, `executeComplete`, `validateAction`, `normalizeURL`),
and the replay engine (`SkillsManager.executeSkill`).

External collaborators (the page host's `runJs`/navigation calls, `JSON.parse`,
`new URL`, wall-clock time) are abstracted as explicit function parameters or
`Nat` timestamps; everything else is translated directly from the TypeScript
source.  Where a theorem needs an observation the code does not return (number
of dispatch attempts, selector candidates tried, back-off waits), the embedding
returns that trace alongside the value the code returns.
-/

namespace Blueberry

/-- A minimal JSON value, used to embed the dynamically-typed objects the
planner receives from `JSON.parse` (src/src/main/agent/AgentPlanner.ts). -/
inductive JValue where
  | jnull
  | jbool (b : Bool)
  | jnum (n : Int)
  | jstr (s : String)
  | jarr (xs : List JValue)
  | jobj (fields : List (String × JValue))

/-- JavaScript truthiness of a `JValue` (`!v` is the negation of this). -/
def JValue.truthy : JValue → Bool
  | .jnull => false
  | .jbool b => b
  | .jnum n => n ≠ 0
  | .jstr s => s ≠ ""
  | .jarr _ => true
  | .jobj _ => true

/-- `typeof v === "object"` for a parsed JSON value (note: `null` and arrays
are `"object"` in JavaScript). -/
def JValue.isObjectTy : JValue → Bool
  | .jnull => true
  | .jarr _ => true
  | .jobj _ => true
  | _ => false

/-- Field lookup on a parsed JSON value: `v.k` is `undefined` (here `none`)
when `v` is not an object or lacks the field. -/
def JValue.field : JValue → String → Option JValue
  | .jobj fields, k => fields.lookup k
  | _, _ => none

/-- The `ActionType` string enum (src/src/main/agent/types.ts, lines 14-44).
`unknownTy s` embeds the strings outside the enum that the unchecked cast
`actionObj.type as ActionType` in `AgentPlanner.parseAction` lets through. -/
inductive ActionType where
  | navigate | goBack | goForward | reload
  | click | typeText | select | scroll | hover
  | extract | getText | getAttribute
  | createTab | switchTab | closeTab
  | wait | waitForElement
  | complete
  | unknownTy (s : String)
deriving DecidableEq

/-- Decode an action-type string the way the unchecked cast admits it. -/
def ActionType.ofString (s : String) : ActionType :=
  if s = "navigate" then .navigate
  else if s = "go_back" then .goBack
  else if s = "go_forward" then .goForward
  else if s = "reload" then .reload
  else if s = "click" then .click
  else if s = "type" then .typeText
  else if s = "select" then .select
  else if s = "scroll" then .scroll
  else if s = "hover" then .hover
  else if s = "extract" then .extract
  else if s = "get_text" then .getText
  else if s = "get_attribute" then .getAttribute
  else if s = "create_tab" then .createTab
  else if s = "switch_tab" then .switchTab
  else if s = "close_tab" then .closeTab
  else if s = "wait" then .wait
  else if s = "wait_for_element" then .waitForElement
  else if s = "complete" then .complete
  else .unknownTy s

/-- The kind-specific parameter object of an action.  The TypeScript
`parameters` objects are dynamic (they come from LLM JSON), so every field is
optional here; `none` models an absent (`undefined`) field.  `dataText` holds
the serialized form of the opaque `data` payload of a `complete` action. -/
structure ActionParameters where
  url : Option String := none
  selector : Option String := none
  selectors : Option (List (List String)) := none
  text : Option String := none
  clear : Bool := false
  value : Option String := none
  direction : Option String := none
  amount : Option Int := none
  schemaKeys : Option (List String) := none
  ms : Option Int := none
  timeout : Option Int := none
  tabId : Option String := none
  reason : Option String := none
  dataText : Option String := none
  attributeName : Option String := none
deriving DecidableEq

/-- An agent action (src/src/main/agent/types.ts, `AgentAction`): a type tag
plus its parameters and optional free-text reasoning.  Timestamps are
irrelevant to the verified properties and omitted. -/
structure AgentAction where
  ty : ActionType
  parameters : ActionParameters
  reasoning : String := ""
deriving DecidableEq

/-- JavaScript falsiness of an optional string field (`!x` is true for both
`undefined` and `""`). -/
def strFalsy : Option String → Bool
  | none => true
  | some s => s = ""

/-- `validateNavigateAction` (src/unnamed/part_004, lines 27-43).  The WHATWG
URL parser behind `new URL(...)` is external; `urlParses` abstracts whether a
given string parses without throwing. -/
def validateNavigateAction (urlParses : String → Bool) (p : ActionParameters) :
    Option String :=
  if strFalsy p.url then some "URL is required for navigate action"
  else
    match p.url with
    | some u =>
      if urlParses u then none
      else if urlParses ("https://" ++ u) then none
      else some "Invalid URL format"
    | none => some "URL is required for navigate action"

/-- `validateClickAction` (src/unnamed/part_004, lines 45-50). -/
def validateClickAction (p : ActionParameters) : Option String :=
  if strFalsy p.selector then some "Selector is required for click action"
  else none

/-- `validateTypeAction` (src/unnamed/part_004, lines 52-60).  Note the source
rejects only `undefined`/`null` text (`text === undefined || text === null`),
so the empty string is accepted. -/
def validateTypeAction (p : ActionParameters) : Option String :=
  if strFalsy p.selector then some "Selector is required for type action"
  else if p.text = none then some "Text is required for type action"
  else none

/-- `validateSelectAction` (src/unnamed/part_004, lines 62-70). -/
def validateSelectAction (p : ActionParameters) : Option String :=
  if strFalsy p.selector then some "Selector is required for select action"
  else if strFalsy p.value then some "Value is required for select action"
  else none

/-- `validateScrollAction` (src/unnamed/part_004, lines 72-78).
`validDirections.includes(direction)` is false for a missing direction. -/
def validateScrollAction (p : ActionParameters) : Option String :=
  match p.direction with
  | some d =>
    if d = "up" ∨ d = "down" ∨ d = "to" then none
    else some "Invalid scroll direction. Must be one of: up, down, to"
  | none => some "Invalid scroll direction. Must be one of: up, down, to"

/-- `validateExtractAction` (src/unnamed/part_004, lines 80-88).  Only the key
set of the schema object matters to the check. -/
def validateExtractAction (p : ActionParameters) : Option String :=
  match p.schemaKeys with
  | none => some "Schema is required for extract action"
  | some ks => if ks.length = 0 then some "Schema is required for extract action" else none

/-- `validateWaitAction` (src/unnamed/part_004, lines 90-98).  A missing `ms`
compares as `NaN` in JavaScript, so both bound checks are false and the
action passes validation. -/
def validateWaitAction (p : ActionParameters) : Option String :=
  match p.ms with
  | some m =>
    if m < 0 then some "Wait duration must be positive"
    else if m > 30000 then some "Wait duration cannot exceed 30 seconds"
    else none
  | none => none

/-- `validateWaitForElementAction` (src/unnamed/part_004, lines 100-113). -/
def validateWaitForElementAction (p : ActionParameters) : Option String :=
  if strFalsy p.selector then some "Selector is required for wait_for_element action"
  else
    match p.timeout with
    | some t =>
      if t < 0 then some "Timeout must be positive"
      else if t > 60000 then some "Timeout cannot exceed 60 seconds"
      else none
    | none => none

/-- `validateAction` (src/unnamed/part_004, lines 115-147): per-kind pre-flight
validation dispatch; the listed kinds with no validator return `null`. -/
def validateAction (urlParses : String → Bool) (a : AgentAction) : Option String :=
  match a.ty with
  | .navigate => validateNavigateAction urlParses a.parameters
  | .click => validateClickAction a.parameters
  | .typeText => validateTypeAction a.parameters
  | .select => validateSelectAction a.parameters
  | .scroll => validateScrollAction a.parameters
  | .extract => validateExtractAction a.parameters
  | .wait => validateWaitAction a.parameters
  | .waitForElement => validateWaitForElementAction a.parameters
  | .goBack => none
  | .goForward => none
  | .reload => none
  | .hover => none
  | .getText => none
  | .getAttribute => none
  | .createTab => none
  | .switchTab => none
  | .closeTab => none
  | .complete => none
  | .unknownTy _ => some "Unknown action type"

/-- `String.prototype.startsWith`, modeled as a prefix test on the character
sequence of the string. -/
def startsWithS (s p : String) : Bool :=
  p.data.isPrefixOf s.data

/-- `normalizeURL` (src/unnamed/part_004, lines 357-363): return falsy input
unchanged, keep an explicit `http://`/`https://` scheme, otherwise prepend
`https://`. -/
def normalizeURL (url : String) : String :=
  if url = "" then url
  else if startsWithS url "http://" ∨ startsWithS url "https://" then url
  else "https://" ++ url

/-- The data payload carried by a successful `ExecutionResult`.  Only the
shapes the verified properties inspect are distinguished; everything else is
collapsed into `other`. -/
inductive ResultData where
  | completePayload (reason : Option String) (result : Option String)
  | other (tag : String)
deriving DecidableEq

/-- `ExecutionResult` (src/src/main/agent/types.ts, lines 212-220).  Wall-clock
`duration`/`timestamp` are abstracted to `Nat` and set to `0` where the source
reads the real clock; no verified property depends on them. -/
structure ExecutionResult where
  success : Bool
  action : AgentAction
  error : Option String := none
  data : Option ResultData := none
  screenshot : Option String := none
  duration : Nat := 0
  timestamp : Nat := 0
deriving DecidableEq

/-- `AgentExecutor.createErrorResult` (src/src/main/agent/SkillsManager.ts,
lines 1439-1452): a failed result attributed to the action. -/
def createErrorResult (action : AgentAction) (error : String) : ExecutionResult :=
  { success := false, action := action, error := some error }

/-- `AgentExecutor.executeComplete` (src/src/main/agent/SkillsManager.ts,
lines 1400-1415): a pure success result whose data is
`{reason: parameters.reason, result: parameters.data}`.  No tab call occurs. -/
def executeComplete (action : AgentAction) : ExecutionResult :=
  { success := true
    action := action
    data := some (.completePayload action.parameters.reason action.parameters.dataText) }

/-- `AgentConfig` (src/src/main/agent/types.ts, lines 280-298), restricted to
the fields the verified components read. -/
structure AgentConfig where
  maxIterations : Nat := 50
  maxRetries : Nat := 3
  actionDelay : Nat := 1000
  captureScreenshots : Bool := true
deriving DecidableEq

/-- The outcome of one invocation of the kind-dispatch `switch` inside
`AgentExecutor.executeAction`: either the per-kind handler returned an
`ExecutionResult` or it threw. -/
inductive DispatchOutcome where
  | ok (r : ExecutionResult)
  | thrown (msg : String)

/-- What one call to `AgentExecutor.executeAction` produces, together with the
trace a mock page host would observe: how many times the kind-dispatch ran and
which back-off waits (ms) separated the attempts.  `result` is the value the
source returns; the other two fields are instrumentation. -/
structure ExecTrace where
  result : ExecutionResult
  dispatchCount : Nat
  backoffs : List Nat
deriving DecidableEq

/-- `AgentExecutor.executeAction` (src/src/main/agent/SkillsManager.ts, lines
574-704).  `dispatch n` abstracts the outcome of the kind-dispatch `switch` on
the attempt with `retryCount = n` (the page may change between attempts, hence
the index).  A validation error returns immediately with no dispatch; a failed
or thrown dispatch retries after a fixed `wait(1000)` while
`retryCount < config.maxRetries`, re-entering the full function; otherwise the
final attempt's outcome is returned. -/
def executeAction (cfg : AgentConfig) (urlParses : String → Bool)
    (dispatch : Nat → DispatchOutcome) (action : AgentAction)
    (retryCount : Nat) : ExecTrace :=
  match validateAction urlParses action with
  | some err => { result := createErrorResult action err, dispatchCount := 0, backoffs := [] }
  | none =>
    match dispatch retryCount with
    | .ok r =>
      if ¬r.success ∧ retryCount < cfg.maxRetries then
        let t := executeAction cfg urlParses dispatch action (retryCount + 1)
        { t with dispatchCount := t.dispatchCount + 1, backoffs := 1000 :: t.backoffs }
      else
        { result := r, dispatchCount := 1, backoffs := [] }
    | .thrown msg =>
      if retryCount < cfg.maxRetries then
        let t := executeAction cfg urlParses dispatch action (retryCount + 1)
        { t with dispatchCount := t.dispatchCount + 1, backoffs := 1000 :: t.backoffs }
      else
        { result := createErrorResult action msg, dispatchCount := 1, backoffs := [] }
termination_by cfg.maxRetries - retryCount
decreasing_by
  all_goals omega

/-- The kind-dispatch for a `complete` action never touches the page: the
`switch` routes it to the pure `executeComplete` (src/src/main/agent/
SkillsManager.ts, lines 655-657). -/
def completeDispatch (action : AgentAction) : Nat → DispatchOutcome :=
  fun _ => .ok (executeComplete action)

/-- Prefix normalization shared by `tryClickWithSelector` (src/src/main/agent/
SkillsManager.ts, lines 908-939) and `tryTypeWithSelector` (lines 1029-1051):
`xpath/…` → `xpath:…`, `aria/…` → an attribute-equality selector, `text/…` →
`text:…`, `pierce/…` → the bare selector. -/
def normalizeSelector (selector : String) : String :=
  if startsWithS selector "xpath/" then "xpath:" ++ (selector.drop 6)
  else if startsWithS selector "aria/" then "[aria-label=\x22" ++ (selector.drop 5) ++ "\x22]"
  else if startsWithS selector "text/" then "text:" ++ (selector.drop 5)
  else if startsWithS selector "pierce/" then selector.drop 7
  else selector

/-- Outcome of one `tab.runJs(window.__agentHelpers.click/type(...))` call on a
normalized selector: the helper reported success, reported failure with an
optional error string, or the call threw. -/
inductive TryOutcome where
  | success
  | failure (err : Option String)
  | thrown (msg : String)
deriving DecidableEq

/-- Inner candidate loop of `executeClick`/`executeType`: try each candidate in
order, returning the candidates attempted and the first one whose operation
succeeded.  A reported failure and a thrown call both fall through to the next
candidate (the source's `catch` does `continue`). -/
def tryCandidates (host : String → TryOutcome) : List String → List String × Option String
  | [] => ([], none)
  | s :: rest =>
    match host (normalizeSelector s) with
    | .success => ([s], some s)
    | _ =>
      let (tried, winner) := tryCandidates host rest
      (s :: tried, winner)

/-- Outer group loop of `executeClick`/`executeType`: iterate locator-strategy
groups in order; a group whose scan found a winner ends the search, otherwise
move to the next group (an empty group is skipped, as with the source's
`continue` on an empty `selectorArray`). -/
def tryGroups (host : String → TryOutcome) : List (List String) → List String × Option String
  | [] => ([], none)
  | g :: gs =>
    let (tried, winner) := tryCandidates host g
    match winner with
    | some s => (tried, some s)
    | none =>
      let (tried', winner') := tryGroups host gs
      (tried ++ tried', winner')

/-- Result summary of one `executeClick`/`executeType` call: which candidates
from the locator-group list were attempted (in order), whether the action
succeeded, the error string of a failed result, and the winning candidate. -/
structure ClickEval where
  attempted : List String
  success : Bool
  error : Option String := none
  winner : Option String := none
deriving DecidableEq

/-- Single-selector fallback branch of `executeClick` (src/src/main/agent/
SkillsManager.ts, lines 870-902): call the click helper with the raw
`parameters.selector` (no prefix normalization happens on this path).  With the
selector absent the source would throw inside `escapeString` and surface the
exception through the outer `catch`. -/
def singleClick (host : String → TryOutcome) (sel : Option String) : ClickEval :=
  match sel with
  | some s =>
    match host s with
    | .success => { attempted := [], success := true, winner := some s }
    | .failure err => { attempted := [], success := false, error := some (err.getD "Click failed") }
    | .thrown msg => { attempted := [], success := false, error := some msg }
  | none => { attempted := [], success := false, error := some "selector is undefined" }

/-- `AgentExecutor.executeClick` (src/src/main/agent/SkillsManager.ts, lines
818-939), abstracted over the page host: with a non-empty `selectors`
locator-group list, resolve through `tryGroups` and fail with
"All selector strategies failed" when no candidate succeeds; otherwise fall
back to the single `selector` field.  `executeType` (lines 941-1027) duplicates
this control flow verbatim around the type helper, so it shares this
definition's group path. -/
def executeClick (host : String → TryOutcome) (p : ActionParameters) : ClickEval :=
  match p.selectors with
  | some gs =>
    if gs.length > 0 then
      match tryGroups host gs with
      | (tried, some s) => { attempted := tried, success := true, winner := some s }
      | (tried, none) =>
        { attempted := tried, success := false, error := some "All selector strategies failed" }
    else singleClick host p.selector
  | none => singleClick host p.selector

/-- `AgentExecutor.executeType` (src/src/main/agent/SkillsManager.ts, lines
941-1027): identical group resolution; only the single-selector fallback calls
the type helper instead of the click helper. -/
def executeType (host : String → TryOutcome) (p : ActionParameters) : ClickEval :=
  executeClick host p

/-- `JSON.stringify` on a parsed value, used only to record the opaque `data`
payload of a parsed `complete` action as text (string-escape subtleties are
irrelevant to every verified property). -/
def jsonShow : JValue → String
  | .jnull => "null"
  | .jbool true => "true"
  | .jbool false => "false"
  | .jnum n => toString n
  | .jstr s => "\x22" ++ s ++ "\x22"
  | .jarr xs => "[" ++ String.intercalate "," (xs.attach.map (fun x => jsonShow x.1)) ++ "]"
  | .jobj fs => "\x7b" ++ String.intercalate ","
      (fs.attach.map (fun f => "\x22" ++ f.1.1 ++ "\x22:" ++ jsonShow f.1.2)) ++ "\x7d"
decreasing_by
  · have := List.sizeOf_lt_of_mem x.2
    simp [JValue.jarr.sizeOf_spec]
    omega
  · have h1 := List.sizeOf_lt_of_mem f.2
    have h2 : sizeOf f.1.2 < sizeOf f.1 := by
      cases f.1 with
      | mk a b => simp
    simp [JValue.jobj.sizeOf_spec]
    omega

/-- Read a string-valued field of a parameters object (`undefined` otherwise). -/
def jStrField (v : JValue) (k : String) : Option String :=
  match v.field k with
  | some (.jstr s) => some s
  | _ => none

/-- Read a number-valued field of a parameters object. -/
def jIntField (v : JValue) (k : String) : Option Int :=
  match v.field k with
  | some (.jnum n) => some n
  | _ => none

/-- Convert the dynamic `parameters` object of a parsed action into the typed
parameter record.  Group lists keep exactly their array-of-array-of-string
content (the executor's loops skip non-array groups, mirrored by `filterMap`),
and the opaque `data` payload is kept as its serialized text. -/
def paramsOfJson (v : JValue) : ActionParameters :=
  { url := jStrField v "url"
    selector := jStrField v "selector"
    selectors :=
      match v.field "selectors" with
      | some (.jarr gs) =>
        some (gs.filterMap (fun g =>
          match g with
          | .jarr cs => some (cs.filterMap (fun c =>
              match c with
              | .jstr s => some s
              | _ => none))
          | _ => none))
      | _ => none
    text := jStrField v "text"
    clear := (match v.field "clear" with | some (.jbool b) => b | _ => false)
    value := jStrField v "value"
    direction := jStrField v "direction"
    amount := jIntField v "amount"
    schemaKeys := (match v.field "schema" with | some (.jobj fs) => some (fs.map (·.1)) | _ => none)
    ms := jIntField v "ms"
    timeout := jIntField v "timeout"
    tabId := jStrField v "tabId"
    reason := jStrField v "reason"
    dataText := (v.field "data").map jsonShow
    attributeName := jStrField v "attribute" }

/-- `PlanningResponse` (src/src/main/agent/types.ts, lines 272-277).
Confidence is a JSON number, embedded as `Int` (only its zero/non-zero status
matters to the verified properties). -/
structure PlanningResponse where
  action : Option AgentAction
  goalAchieved : Bool
  confidence : Int
  reasoning : String
deriving DecidableEq

/-- The zero-confidence fallback `parseResponse` returns from its `catch`
(src/src/main/agent/AgentPlanner.ts, lines 374-379). -/
def parseFailureResponse (msg : String) : PlanningResponse :=
  { action := none
    goalAchieved := false
    confidence := 0
    reasoning := "Failed to parse LLM response: " ++ msg }

/-- `AgentPlanner.parseAction` (src/src/main/agent/AgentPlanner.ts, lines
383-402): the `type` field must be a truthy string (but is then cast without
membership checking — `ActionType.ofString` keeps out-of-enum strings), and
`parameters` must be a truthy object. -/
def parseAction (actionObj : JValue) : Except String AgentAction :=
  match actionObj.field "type" with
  | some (.jstr s) =>
    if s = "" then .error "Action must have a 'type' field"
    else
      match actionObj.field "parameters" with
      | some pv =>
        if pv.truthy ∧ pv.isObjectTy then
          .ok { ty := ActionType.ofString s
                parameters := paramsOfJson pv
                reasoning := (match actionObj.field "reasoning" with
                              | some (.jstr r) => r
                              | _ => "") }
        else .error "Action must have a 'parameters' object"
      | none => .error "Action must have a 'parameters' object"
  | some _ => .error "Action must have a 'type' field"
  | none => .error "Action must have a 'type' field"

/-- The body of the `try` in `AgentPlanner.parseResponse` after `JSON.parse`
succeeded (src/src/main/agent/AgentPlanner.ts, lines 330-360): field-type
checks on `reasoning`/`goalAchieved`/`confidence`, the goal-achieved short
circuit, and the action-object contract check (`!parsed.action || typeof
parsed.action !== "object"`, where JavaScript counts `null` and arrays as
objects but `null` is falsy). -/
def parseResponseChecks (parsed : JValue) : Except String PlanningResponse := do
  let reasoning ←
    match parsed.field "reasoning" with
    | some (.jstr s) => pure s
    | _ => .error "Missing or invalid 'reasoning' field"
  let goalAchieved ←
    match parsed.field "goalAchieved" with
    | some (.jbool b) => pure b
    | _ => .error "Missing or invalid 'goalAchieved' field"
  let confidence ←
    match parsed.field "confidence" with
    | some (.jnum n) => pure n
    | _ => .error "Missing or invalid 'confidence' field"
  if goalAchieved then
    pure { action := none, goalAchieved := true, confidence := confidence,
           reasoning := reasoning }
  else
    match parsed.field "action" with
    | some av =>
      if av.truthy ∧ av.isObjectTy then do
        let act ← parseAction av
        pure { action := some act, goalAchieved := false, confidence := confidence,
               reasoning := reasoning }
      else .error "Missing or invalid 'action' field"
    | none => .error "Missing or invalid 'action' field"

/-- `AgentPlanner.parseResponse` (src/src/main/agent/AgentPlanner.ts, lines
321-381).  The code-fence stripping plus `JSON.parse` call is the external
boundary, embedded as its outcome: `.error msg` when `JSON.parse` threw,
`.ok v` with the parsed value otherwise.  Every failure — parse error or
contract violation — lands in the `catch` and yields the zero-confidence
fallback. -/
def parseResponse (parsed : Except String JValue) : PlanningResponse :=
  match parsed with
  | .error msg => parseFailureResponse msg
  | .ok v =>
    match parseResponseChecks v with
    | .ok r => r
    | .error msg => parseFailureResponse msg

/-- Result record of `shouldGiveUp`. -/
structure GiveUpCheck where
  giveUp : Bool
  reason : String
deriving DecidableEq

/-- `shouldGiveUp` (src/src/main/agent/AgentPlanner.ts, lines 458-493):
give up when the last five results all failed, or when the last three actions
share their type and the JSON encoding of their parameters (embedded as
structural equality of the parameter record). -/
def shouldGiveUp (actionHistory : List ExecutionResult) : GiveUpCheck :=
  let recentActions := actionHistory.drop (actionHistory.length - 5)
  if recentActions.length ≥ 5 ∧ recentActions.all (fun r => ¬r.success) then
    { giveUp := true, reason := "Last 5 actions failed - unable to make progress" }
  else if actionHistory.length ≥ 3 then
    match actionHistory.drop (actionHistory.length - 3) with
    | [] => { giveUp := false, reason := "" }
    | r0 :: rest =>
      let last3 := r0 :: rest
      let allSameType := last3.all (fun r => r.action.ty = r0.action.ty)
      let allSameParams := last3.all (fun r => r.action.parameters = r0.action.parameters)
      if allSameType ∧ allSameParams then
        { giveUp := true, reason := "Stuck in a loop - repeating the same action" }
      else
        { giveUp := false, reason := "" }
  else
    { giveUp := false, reason := "" }

/-- `AgentStatus` (src/src/main/agent/types.ts, lines 231-239). -/
inductive AgentStatus where
  | created | planning | executing | paused | completed | failed | stopped
deriving DecidableEq

/-- The string value of a status, used in lifecycle error messages. -/
def AgentStatus.str : AgentStatus → String
  | .created => "created"
  | .planning => "planning"
  | .executing => "executing"
  | .paused => "paused"
  | .completed => "completed"
  | .failed => "failed"
  | .stopped => "stopped"

/-- `AgentContext` (src/src/main/agent/types.ts): the per-iteration context
snapshot, reduced to the fields the verified properties distinguish. -/
structure AgentContext where
  url : String
  title : String
deriving DecidableEq

/-- The agent's `result` payload (`result?: any` in `AgentState`).  The loop
only ever stores the captured context snapshot (`completeAgent(agentId,
state.currentContext)`); `completionPayload` exists so the spec's claim that a
`complete` action's parameters become the result payload is expressible. -/
inductive AgentResultValue where
  | contextValue (c : AgentContext)
  | completionPayload (reason : Option String) (data : Option String)
deriving DecidableEq

/-- `AgentState` (src/src/main/agent/types.ts, lines 241-253), with wall-clock
fields as `Nat` timestamps. -/
structure AgentState where
  status : AgentStatus
  currentContext : Option AgentContext := none
  actionHistory : List ExecutionResult := []
  currentAction : Option AgentAction := none
  iteration : Nat := 0
  maxIterations : Nat := 50
  error : Option String := none
  startedAt : Option Nat := none
  completedAt : Option Nat := none
  result : Option AgentResultValue := none
deriving DecidableEq

/-- `AgentManager.startAgent` (src/src/main/agent/AgentManager.ts, lines
89-118), viewed on one agent's state: legal only from `created`/`paused`,
otherwise it throws.  The launched loop itself is modeled by `runLoop`. -/
def startAgent (s : AgentState) (now : Nat) : Except String AgentState :=
  if s.status ≠ .created ∧ s.status ≠ .paused then
    .error ("Agent cannot be started from status " ++ s.status.str)
  else
    .ok { s with status := .planning, startedAt := some now }

/-- `AgentManager.pauseAgent` (src/src/main/agent/AgentManager.ts, lines
120-140): legal only from `planning`/`executing`. -/
def pauseAgent (s : AgentState) : Except String AgentState :=
  if s.status ≠ .planning ∧ s.status ≠ .executing then
    .error ("Agent cannot be paused from status " ++ s.status.str)
  else
    .ok { s with status := .paused }

/-- `AgentManager.resumeAgent` (src/src/main/agent/AgentManager.ts, lines
142-167): legal only from `paused`. -/
def resumeAgent (s : AgentState) : Except String AgentState :=
  if s.status ≠ .paused then
    .error ("Agent cannot be resumed from status " ++ s.status.str)
  else
    .ok { s with status := .planning }

/-- `AgentManager.stopAgent` (src/src/main/agent/AgentManager.ts, lines
169-181): after the existence check there is no status guard — the state is
set to `stopped` and `completedAt` recorded from any status whatsoever. -/
def stopAgent (s : AgentState) (now : Nat) : AgentState :=
  { s with status := .stopped, completedAt := some now }

/-- `AgentManager.failAgent` (src/src/main/agent/AgentManager.ts, lines
197-209). -/
def failAgent (s : AgentState) (error : String) (now : Nat) : AgentState :=
  { s with status := .failed, completedAt := some now, error := some error }

/-- `AgentManager.completeAgent` (src/src/main/agent/AgentManager.ts, lines
183-195). -/
def completeAgentState (s : AgentState) (result : Option AgentResultValue)
    (now : Nat) : AgentState :=
  { s with status := .completed, completedAt := some now, result := result }

/-- The collaborators one run of `runExecutionLoop` consults, indexed by the
iteration counter: the planning oracle's (already parsed) response, the action
executor's result, and the captured context snapshot.  They are total
functions: the loop's own `catch` branch only fires when one of them throws,
so it is unreachable in this embedding.  Wall-clock time is the constant
`now`. -/
structure LoopEnv where
  planner : Nat → PlanningResponse
  exec : Nat → AgentAction → ExecutionResult
  ctx : Nat → AgentContext
  now : Nat := 0

/-- The `while` guard of `runExecutionLoop` (src/src/main/agent/
AgentManager.ts, lines 227-233). -/
def loopCond (s : AgentState) : Bool :=
  s.status ≠ .stopped ∧ s.status ≠ .paused ∧ s.status ≠ .completed ∧
    s.status ≠ .failed ∧ s.iteration < s.maxIterations

/-- Whether one pass of the loop body returned from `runExecutionLoop`
(`halt`) or fell through to the next `while` check (`next`). -/
inductive IterOutcome where
  | halt (s : AgentState)
  | next (s : AgentState)
deriving DecidableEq

/-- One pass of the loop body of `runExecutionLoop` (src/src/main/agent/
AgentManager.ts, lines 234-312): increment `iteration`, evaluate the give-up
heuristic (failing the agent and returning if it fires), set `planning` and
capture a context snapshot, consult the planner, complete the agent with the
current context when the response signals achievement or carries no action,
and otherwise execute the action and append its result to the history. -/
def loopIter (env : LoopEnv) (s : AgentState) : IterOutcome :=
  let s1 := { s with iteration := s.iteration + 1 }
  let giveUpCheck := shouldGiveUp s1.actionHistory
  if giveUpCheck.giveUp then
    .halt (failAgent s1 giveUpCheck.reason env.now)
  else
    let s2 := { s1 with status := AgentStatus.planning,
                        currentContext := some (env.ctx s1.iteration) }
    let resp := env.planner s1.iteration
    match resp.goalAchieved, resp.action with
    | true, _ =>
      .halt (completeAgentState s2 (s2.currentContext.map .contextValue) env.now)
    | false, none =>
      .halt (completeAgentState s2 (s2.currentContext.map .contextValue) env.now)
    | false, some a =>
      let s3 := { s2 with currentAction := some a, status := AgentStatus.executing }
      let r := env.exec s1.iteration a
      .next { s3 with actionHistory := s3.actionHistory ++ [r], currentAction := none }

/-- The code after the `while` loop (src/src/main/agent/AgentManager.ts, lines
315-322): exhausting `maxIterations` fails the agent; a stop is only logged. -/
def postLoop (s : AgentState) (now : Nat) : AgentState :=
  if s.iteration ≥ s.maxIterations then
    failAgent s ("Maximum iterations (" ++ toString s.maxIterations ++ ") reached") now
  else s

/-- `runExecutionLoop`'s iteration loop as fuel-indexed recursion; with fuel at
least `maxIterations + 1 - iteration` the fuel never runs out. -/
def runLoop (env : LoopEnv) : Nat → AgentState → AgentState
  | 0, s => s
  | fuel + 1, s =>
    if loopCond s then
      match loopIter env s with
      | .halt s' => s'
      | .next s' => runLoop env fuel s'
    else postLoop s env.now

/-- Usage metadata of a stored skill (src/src/main/agent/SkillsManager.ts,
`skill.metadata`), restricted to the fields `executeSkill` touches. -/
structure SkillMetadata where
  useCount : Nat := 0
  lastUsedAt : Option Nat := none
deriving DecidableEq

/-- A stored skill as `executeSkill` consumes it: an ordered action list, the
optional `context.startUrl`, and the usage metadata. -/
structure Skill where
  actions : List AgentAction := []
  startUrl : Option String := none
  metadata : SkillMetadata := {}
deriving DecidableEq

/-- `SkillExecutionOptions` as read by `executeSkill` (`continueOnError`;
tab selection is external). -/
structure SkillExecutionOptions where
  continueOnError : Bool := false
deriving DecidableEq

/-- `SkillExecutionResult` as built by `executeSkill`, with the wall-clock
fields abstracted away. -/
structure SkillExecutionResult where
  success : Bool
  executedActions : List ExecutionResult
  error : Option String := none
deriving DecidableEq

/-- Outcome of one `this.executor.executeAction(action, tab)` call inside the
replay loop: a returned result, or a throw (absorbed by the loop's inner
`catch`). -/
inductive StepOutcome where
  | ok (r : ExecutionResult)
  | thrown (msg : String)

/-- The replay loop of `executeSkill` (src/src/main/agent/SkillsManager.ts,
lines 273-307) over the per-action outcomes: push each returned result; on a
failing result record its `error` into `lastError` and break unless
`continueOnError`; on a throw record the message (pushing nothing) and break
unless `continueOnError`.  Returns the executed results and the final
`lastError`. -/
def skillLoop (continueOnError : Bool) :
    List StepOutcome → Option String → List ExecutionResult × Option String
  | [], lastError => ([], lastError)
  | .ok r :: rest, lastError =>
    if r.success then
      let (xs, e) := skillLoop continueOnError rest lastError
      (r :: xs, e)
    else if continueOnError then
      let (xs, e) := skillLoop continueOnError rest r.error
      (r :: xs, e)
    else ([r], r.error)
  | .thrown msg :: rest, _ =>
    if continueOnError then
      let (xs, e) := skillLoop continueOnError rest (some msg)
      (xs, e)
    else ([], some msg)

/-- `SkillsManager.executeSkill` (src/src/main/agent/SkillsManager.ts, lines
234-336), viewed on one skill.  `navOutcome` is the outcome of the optional
start-URL navigation (`some msg` = the navigate call threw, landing in the
outer `catch`); `outcome i` is what the executor does for action `i`.  Returns
the `SkillExecutionResult` plus the skill as left behind: on the normal path
the engine itself stamps `lastUsedAt`, increments `useCount` and persists via
`saveSkill`, and overall `success` is `!lastError || continueOnError ===
true`. -/
def executeSkill (skill : Skill) (navOutcome : Option String)
    (outcome : Nat → StepOutcome) (opts : SkillExecutionOptions) (now : Nat) :
    SkillExecutionResult × Skill :=
  match skill.startUrl, navOutcome with
  | some _, some msg =>
    ({ success := false, executedActions := [], error := some msg }, skill)
  | _, _ =>
    let steps := (List.range skill.actions.length).map outcome
    let (executed, lastError) := skillLoop opts.continueOnError steps none
    let updated : Skill :=
      { skill with metadata := { useCount := skill.metadata.useCount + 1,
                                 lastUsedAt := some now } }
    ({ success := strFalsy lastError ∨ opts.continueOnError
       executedActions := executed
       error := lastError }, updated)

/-! ## Support definitions for the statements -/

/-- A kind-dispatch attempt that did not succeed: it returned a failed result
or threw. -/
def DispatchOutcome.failsOrThrows : DispatchOutcome → Prop
  | .ok r => r.success = false
  | .thrown _ => True

/-- The final result `executeAction`'s retry loop returns when the attempt at
`retryCount = cfg.maxRetries` is the last one. -/
def finalAttemptResult (action : AgentAction) : DispatchOutcome → ExecutionResult
  | .ok r => r
  | .thrown msg => createErrorResult action msg

/-- A locator candidate whose operation does not succeed on the host (the
resolution loops fall through such candidates). -/
def candidateFails (host : String → TryOutcome) (c : String) : Bool :=
  match host (normalizeSelector c) with
  | .success => false
  | _ => true

/-- Fixture: an action with no parameters to validate (`go_back`). -/
def goBackAction : AgentAction := { ty := .goBack, parameters := {} }

/-- Fixture: a `complete` action with a reason and a data payload. -/
def completeFixtureAction : AgentAction :=
  { ty := .complete,
    parameters := { reason := some "done", dataText := some "\x22payload\x22" } }

/-- Fixture: a context snapshot. -/
def ctxFixture : AgentContext := { url := "https://x.test/", title := "X" }

/-- Fixture: a fresh just-started state (what `startAgent` leaves behind). -/
def startedState : AgentState := { status := .planning, startedAt := some 0 }

/-- Fixture: a loop environment whose oracle response always is the parse
fallback (`parseResponse` of a throwing `JSON.parse`). -/
def parseFailureEnv : LoopEnv :=
  { planner := fun _ => parseResponse (.error "Unexpected token"),
    exec := fun _ a => createErrorResult a "unused",
    ctx := fun _ => ctxFixture,
    now := 0 }

/-- Fixture: a loop environment whose oracle proposes the `complete` action on
iteration 1 and signals achievement on iteration 2; the executor behaves as
the real one does on a `complete` action (it returns `executeComplete`, per
the C9 theorem). -/
def completeScenarioEnv : LoopEnv :=
  { planner := fun i =>
      if i = 1 then
        { action := some completeFixtureAction, goalAchieved := false,
          confidence := 1, reasoning := "finishing" }
      else
        { action := none, goalAchieved := true, confidence := 1, reasoning := "done" },
    exec := fun _ a => executeComplete a,
    ctx := fun _ => ctxFixture,
    now := 0 }

/-- Fixture: an agent state that has already completed. -/
def completedState : AgentState :=
  { status := .completed, completedAt := some 3, result := some (.contextValue ctxFixture) }

/-- Fixture: a stored skill with no actions and fresh metadata. -/
def emptySkill : Skill := { actions := [], startUrl := none, metadata := {} }

/-! ## General lemmas -/

/-- A string always starts with a prefix just prepended to it. -/
theorem startsWithS_append_self (p u : String) : startsWithS (p ++ u) p = true := by
  simp [startsWithS, String.data_append, List.isPrefixOf_iff_prefix]

/-! ## C10 -/

/-- C10: `normalizeURL` is idempotent; every string beginning with `http://`
or `https://` and the empty string are returned unchanged; every other string
is returned with `https://` prepended. -/
theorem C10_normalizeURL_spec :
    (∀ u : String, normalizeURL (normalizeURL u) = normalizeURL u) ∧
    (∀ u : String,
      (startsWithS u "http://" = true ∨ startsWithS u "https://" = true) →
      normalizeURL u = u) ∧
    normalizeURL "" = "" ∧
    (∀ u : String, u ≠ "" → startsWithS u "http://" = false →
      startsWithS u "https://" = false → normalizeURL u = "https://" ++ u) := by
  have hpre : ∀ u : String,
      (startsWithS u "http://" = true ∨ startsWithS u "https://" = true) →
      normalizeURL u = u := by
    intro u h
    unfold normalizeURL
    by_cases he : u = ""
    · simp [he]
    · simp only [he, if_false]
      rcases h with h | h <;> simp [h]
  have hplain : ∀ u : String, u ≠ "" → startsWithS u "http://" = false →
      startsWithS u "https://" = false → normalizeURL u = "https://" ++ u := by
    intro u he h1 h2
    simp [normalizeURL, he, h1, h2]
  refine ⟨?_, hpre, by simp [normalizeURL], hplain⟩
  intro u
  by_cases he : u = ""
  · simp [he, normalizeURL]
  · by_cases hs : startsWithS u "http://" = true ∨ startsWithS u "https://" = true
    · rw [hpre u hs, hpre u hs]
    · push_neg at hs
      obtain ⟨h1, h2⟩ := hs
      rw [hplain u he (by simpa using h1) (by simpa using h2)]
      exact hpre _ (Or.inr (startsWithS_append_self "https://" u))

/-- C10 witness: the theorem applied at concrete URLs. -/
theorem C10_normalizeURL_spec_witness :
    normalizeURL "http://a.com" = "http://a.com" ∧
    normalizeURL "example.com" = "https://example.com" :=
  ⟨C10_normalizeURL_spec.2.1 "http://a.com" (Or.inl (by decide)),
   C10_normalizeURL_spec.2.2.2 "example.com" (by decide) (by decide) (by decide)⟩

/-! ## C3 -/

/-- Retry recurrence: starting at any `retryCount ≤ maxRetries`, if every
attempt fails or throws then the executor performs one dispatch per remaining
retry budget plus one, with a 1000 ms wait before each re-entry, and returns
the outcome of the attempt at `retryCount = maxRetries`. -/
theorem executeAction_all_fail (cfg : AgentConfig) (urlParses : String → Bool)
    (dispatch : Nat → DispatchOutcome) (action : AgentAction) :
    validateAction urlParses action = none →
    (∀ i, (dispatch i).failsOrThrows) →
    ∀ n r, r ≤ cfg.maxRetries → cfg.maxRetries - r = n →
    executeAction cfg urlParses dispatch action r =
      { result := finalAttemptResult action (dispatch cfg.maxRetries),
        dispatchCount := n + 1,
        backoffs := List.replicate n 1000 } := by
  intro hv hfail n
  induction n with
  | zero =>
    intro r hle hn
    have hr : r = cfg.maxRetries := by omega
    subst hr
    rw [executeAction, hv]
    have := hfail cfg.maxRetries
    cases hd : dispatch cfg.maxRetries with
    | ok res =>
      rw [hd] at this
      simp only [DispatchOutcome.failsOrThrows] at this
      simp [this, finalAttemptResult, hd]
    | thrown msg =>
      simp [finalAttemptResult, hd]
  | succ m ih =>
    intro r hle hn
    have hlt : r < cfg.maxRetries := by omega
    have hrec := ih (r + 1) (by omega) (by omega)
    rw [executeAction, hv]
    have := hfail r
    cases hd : dispatch r with
    | ok res =>
      rw [hd] at this
      simp only [DispatchOutcome.failsOrThrows] at this
      simp only [this, Bool.false_eq_true, not_false_iff, true_and, hlt, if_pos, hrec]
      simp [List.replicate_succ]
    | thrown msg =>
      simp only [hlt, if_pos, hrec]
      simp [List.replicate_succ]

/-- C3: when every kind-dispatch attempt fails or throws, `executeAction`
called with `retryCount = 0` on a validation-passing action performs exactly
`maxRetries + 1` dispatch attempts separated by fixed 1-second waits, and
returns the single `ExecutionResult` of the final attempt, which is failed;
intermediate attempts produce no further results. -/
theorem C3_retry_bound (cfg : AgentConfig) (urlParses : String → Bool)
    (dispatch : Nat → DispatchOutcome) (action : AgentAction)
    (hv : validateAction urlParses action = none)
    (hfail : ∀ i, (dispatch i).failsOrThrows) :
    (executeAction cfg urlParses dispatch action 0).dispatchCount = cfg.maxRetries + 1 ∧
    (executeAction cfg urlParses dispatch action 0).backoffs =
      List.replicate cfg.maxRetries 1000 ∧
    (executeAction cfg urlParses dispatch action 0).result =
      finalAttemptResult action (dispatch cfg.maxRetries) ∧
    (executeAction cfg urlParses dispatch action 0).result.success = false := by
  have h := executeAction_all_fail cfg urlParses dispatch action hv hfail
    cfg.maxRetries 0 (Nat.zero_le _) (Nat.sub_zero _)
  refine ⟨by rw [h], by rw [h], by rw [h], ?_⟩
  rw [h]
  have := hfail cfg.maxRetries
  cases hd : dispatch cfg.maxRetries with
  | ok res =>
    rw [hd] at this
    simpa [finalAttemptResult] using this
  | thrown msg =>
    simp [finalAttemptResult, createErrorResult]

/-- C3 witness: the default config against a dispatch that always throws makes
exactly four attempts with three 1-second backoffs and fails. -/
theorem C3_retry_bound_witness :
    (executeAction {} (fun _ => true) (fun _ => .thrown "boom") goBackAction 0).dispatchCount
      = 4 ∧
    (executeAction {} (fun _ => true) (fun _ => .thrown "boom") goBackAction 0).backoffs
      = [1000, 1000, 1000] ∧
    (executeAction {} (fun _ => true) (fun _ => .thrown "boom") goBackAction 0).result.success
      = false := by
  have h := C3_retry_bound {} (fun _ => true) (fun _ => .thrown "boom") goBackAction
    (by rfl) (fun i => trivial)
  exact ⟨h.1, by simpa using h.2.1, h.2.2.2⟩

/-! ## C8 -/

/-- C8: an empty or missing required parameter fails pre-flight validation
(url for navigate; selector for click/type/select; text for type; value for
select), and any validation failure makes `executeAction` return one failed
result immediately: zero kind-dispatch invocations (hence no Page Host call)
and no retry back-off, for every starting `retryCount`. -/
theorem C8_validation_short_circuit :
    (∀ (urlParses : String → Bool) (p : ActionParameters) (re : String),
      strFalsy p.url = true →
      validateAction urlParses { ty := .navigate, parameters := p, reasoning := re } =
        some "URL is required for navigate action") ∧
    (∀ (urlParses : String → Bool) (p : ActionParameters) (re : String),
      strFalsy p.selector = true →
      validateAction urlParses { ty := .click, parameters := p, reasoning := re } =
        some "Selector is required for click action") ∧
    (∀ (urlParses : String → Bool) (p : ActionParameters) (re : String),
      strFalsy p.selector = true →
      validateAction urlParses { ty := .typeText, parameters := p, reasoning := re } =
        some "Selector is required for type action") ∧
    (∀ (urlParses : String → Bool) (p : ActionParameters) (re : String),
      strFalsy p.selector = false → p.text = none →
      validateAction urlParses { ty := .typeText, parameters := p, reasoning := re } =
        some "Text is required for type action") ∧
    (∀ (urlParses : String → Bool) (p : ActionParameters) (re : String),
      strFalsy p.selector = false → strFalsy p.value = true →
      validateAction urlParses { ty := .select, parameters := p, reasoning := re } =
        some "Value is required for select action") ∧
    (∀ (cfg : AgentConfig) (urlParses : String → Bool)
        (dispatch : Nat → DispatchOutcome) (a : AgentAction) (e : String) (r : Nat),
      validateAction urlParses a = some e →
      executeAction cfg urlParses dispatch a r =
        { result := createErrorResult a e, dispatchCount := 0, backoffs := [] }) := by
  refine ⟨?_, ?_, ?_, ?_, ?_, ?_⟩
  · intro urlParses p re h
    simp [validateAction, validateNavigateAction, h]
  · intro urlParses p re h
    simp [validateAction, validateClickAction, h]
  · intro urlParses p re h
    simp [validateAction, validateTypeAction, h]
  · intro urlParses p re hs ht
    simp [validateAction, validateTypeAction, hs, ht]
  · intro urlParses p re hs hv
    simp [validateAction, validateSelectAction, hs, hv]
  · intro cfg urlParses dispatch a e r hv
    rw [executeAction, hv]

/-- C8 witness: a click action with an empty selector is rejected without any
dispatch and without retries. -/
theorem C8_validation_short_circuit_witness :
    validateAction (fun _ => true)
      { ty := .click, parameters := { selector := some "" }, reasoning := "" } =
      some "Selector is required for click action" ∧
    executeAction {} (fun _ => true) (fun _ => .thrown "never reached")
      { ty := .click, parameters := { selector := some "" }, reasoning := "" } 0 =
      { result := createErrorResult
          { ty := .click, parameters := { selector := some "" }, reasoning := "" }
          "Selector is required for click action",
        dispatchCount := 0, backoffs := [] } :=
  ⟨C8_validation_short_circuit.2.1 (fun _ => true) { selector := some "" } "" (by decide),
   C8_validation_short_circuit.2.2.2.2.2 {} (fun _ => true) (fun _ => .thrown "never reached")
     { ty := .click, parameters := { selector := some "" }, reasoning := "" }
     "Selector is required for click action" 0
     (C8_validation_short_circuit.2.1 (fun _ => true) { selector := some "" } "" (by decide))⟩

/-! ## C4 -/

/-- The candidate scan of a concatenation: a winner in the first part ends the
scan there, otherwise the whole first part is attempted and the scan continues
in the second part. -/
theorem tryCandidates_append (host : String → TryOutcome) (xs ys : List String) :
    tryCandidates host (xs ++ ys) =
      match tryCandidates host xs with
      | (tried, some w) => (tried, some w)
      | (tried, none) =>
        (tried ++ (tryCandidates host ys).1, (tryCandidates host ys).2) := by
  induction xs with
  | nil => simp [tryCandidates]
  | cons c rest ih =>
    cases hd : host (normalizeSelector c) with
    | success => simp [tryCandidates, hd]
    | failure err =>
      rw [List.cons_append]
      rw [show tryCandidates host (c :: (rest ++ ys)) =
        (c :: (tryCandidates host (rest ++ ys)).1, (tryCandidates host (rest ++ ys)).2) by
          simp [tryCandidates, hd]]
      rw [show tryCandidates host (c :: rest) =
        (c :: (tryCandidates host rest).1, (tryCandidates host rest).2) by
          simp [tryCandidates, hd]]
      rw [ih]
      cases hr : tryCandidates host rest with
      | mk tried w => cases w <;> simp [hr]
    | thrown msg =>
      rw [List.cons_append]
      rw [show tryCandidates host (c :: (rest ++ ys)) =
        (c :: (tryCandidates host (rest ++ ys)).1, (tryCandidates host (rest ++ ys)).2) by
          simp [tryCandidates, hd]]
      rw [show tryCandidates host (c :: rest) =
        (c :: (tryCandidates host rest).1, (tryCandidates host rest).2) by
          simp [tryCandidates, hd]]
      rw [ih]
      cases hr : tryCandidates host rest with
      | mk tried w => cases w <;> simp [hr]

/-- Characterization of the candidate scan: with no successful candidate the
whole list is attempted and no winner found; otherwise exactly the failing
candidates before the first successful one plus that winner are attempted. -/
theorem tryCandidates_eq_scan (host : String → TryOutcome) (cs : List String) :
    tryCandidates host cs =
      match cs.dropWhile (candidateFails host) with
      | [] => (cs, none)
      | w :: _ => (cs.takeWhile (candidateFails host) ++ [w], some w) := by
  induction cs with
  | nil => rfl
  | cons c rest ih =>
    cases hd : host (normalizeSelector c) with
    | success =>
      have hf : candidateFails host c = false := by simp [candidateFails, hd]
      simp [tryCandidates, hd, List.dropWhile_cons, List.takeWhile_cons, hf]
    | failure err =>
      have hf : candidateFails host c = true := by simp [candidateFails, hd]
      simp only [tryCandidates, hd, List.dropWhile_cons, List.takeWhile_cons, hf,
        if_true, ih]
      cases h : List.dropWhile (candidateFails host) rest <;> simp
    | thrown msg =>
      have hf : candidateFails host c = true := by simp [candidateFails, hd]
      simp only [tryCandidates, hd, List.dropWhile_cons, List.takeWhile_cons, hf,
        if_true, ih]
      cases h : List.dropWhile (candidateFails host) rest <;> simp

/-- The group loop scans exactly the concatenation of its groups: groups in
order, candidates within a group in order. -/
theorem tryGroups_eq_flatten (host : String → TryOutcome) (gs : List (List String)) :
    tryGroups host gs = tryCandidates host gs.flatten := by
  induction gs with
  | nil => rfl
  | cons g rest ih =>
    rw [List.flatten_cons, tryCandidates_append]
    simp only [tryGroups, ih]
    cases h : tryCandidates host g with
    | mk tried w => cases w <;> simp

/-- C4: for click/type actions carrying a non-empty locator-group list,
resolution scans groups in order and candidates within each group in order
(the scan order is exactly the flattened list): when some candidate's
operation succeeds, exactly the failing candidates before the first winner
plus the winner are attempted — no candidate after it, in its group or any
later group, is touched — and the action succeeds with that winner; when every
candidate fails the whole list is attempted and a failed result with error
"All selector strategies failed" is returned; with no locator-group list
present (or an empty one) resolution falls back to the single `selector`
field; and `executeType` resolves identically to `executeClick`. -/
theorem C4_locator_resolution :
    (∀ (host : String → TryOutcome) (p : ActionParameters) (gs : List (List String)),
      p.selectors = some gs → gs.length > 0 →
      executeClick host p =
        (match gs.flatten.dropWhile (candidateFails host) with
         | [] =>
           { attempted := gs.flatten, success := false,
             error := some "All selector strategies failed", winner := none }
         | w :: _ =>
           { attempted := gs.flatten.takeWhile (candidateFails host) ++ [w],
             success := true, error := none, winner := some w })) ∧
    (∀ (host : String → TryOutcome) (p : ActionParameters),
      p.selectors = none ∨ p.selectors = some [] →
      executeClick host p = singleClick host p.selector) ∧
    (∀ (host : String → TryOutcome) (p : ActionParameters),
      executeType host p = executeClick host p) := by
  refine ⟨?_, ?_, fun _ _ => rfl⟩
  · intro host p gs hsel hlen
    simp only [executeClick, hsel, hlen, if_pos, tryGroups_eq_flatten,
      tryCandidates_eq_scan]
    cases h : List.dropWhile (candidateFails host) gs.flatten <;> simp
  · intro host p hsel
    rcases hsel with h | h <;> simp [executeClick, h]

/-- C4 witness: two groups of two candidates where only the second candidate
of the first group succeeds — the first two candidates are attempted, the
second group is never touched; and the empty-list case falls back to the
single selector. -/
theorem C4_locator_resolution_witness :
    executeClick
      (fun s => if s = "#b" then .success else .failure (some "Element not found"))
      { selector := some "#z", selectors := some [["#a", "#b"], ["#c", "#d"]] } =
      { attempted := ["#a", "#b"], success := true, error := none,
        winner := some "#b" } ∧
    executeClick (fun _ => .failure none) { selector := some "#z", selectors := none } =
      singleClick (fun _ => .failure none) (some "#z") := by
  constructor
  · have h := C4_locator_resolution.1
      (fun s => if s = "#b" then .success else .failure (some "Element not found"))
      { selector := some "#z", selectors := some [["#a", "#b"], ["#c", "#d"]] }
      [["#a", "#b"], ["#c", "#d"]] rfl (by decide)
    rw [h]
    decide
  · exact C4_locator_resolution.2.1 (fun _ => .failure none)
      { selector := some "#z", selectors := none } (Or.inl rfl)

/-! ## C5 -/

/-- With `continueOnError = false`, the replay loop stops at the first failing
result: the executed list is the successful prefix plus that failure, and its
`error` becomes `lastError`. -/
theorem skillLoop_stop_first_fail (l1 : List ExecutionResult) (r : ExecutionResult)
    (rest : List StepOutcome) (le : Option String)
    (h1 : ∀ x ∈ l1, x.success = true) (hr : r.success = false) :
    skillLoop false (l1.map .ok ++ .ok r :: rest) le = (l1 ++ [r], r.error) := by
  induction l1 generalizing le with
  | nil => simp [skillLoop, hr]
  | cons a l1 ih =>
    have ha : a.success = true := h1 a (by simp)
    have ih' := ih le (fun x hx => h1 x (List.mem_cons_of_mem a hx))
    simp [skillLoop, ha, ih']

/-- With `continueOnError = true` and no step throwing, every result is pushed
and `lastError` is the left fold that keeps the most recent failure's error. -/
theorem skillLoop_true_all_ok (l : List ExecutionResult) (le : Option String) :
    skillLoop true (l.map .ok) le =
      (l, l.foldl (fun acc r => if r.success then acc else r.error) le) := by
  induction l generalizing le with
  | nil => simp [skillLoop]
  | cons a l ih =>
    by_cases ha : a.success = true
    · simp [skillLoop, ha, ih]
    · simp only [Bool.not_eq_true] at ha
      simp [skillLoop, ha, ih]

/-- A fold over results that all succeed keeps the accumulator. -/
theorem lastError_foldl_all_ok (l : List ExecutionResult) (acc : Option String)
    (h : ∀ x ∈ l, x.success = true) :
    l.foldl (fun acc r => if r.success then acc else r.error) acc = acc := by
  induction l generalizing acc with
  | nil => rfl
  | cons a l ih =>
    have ha : a.success = true := h a (by simp)
    simp [ha, ih acc (fun x hx => h x (List.mem_cons_of_mem a hx))]

/-- The last failing result's error survives the whole fold when everything
after it succeeds. -/
theorem lastError_foldl_last_fail (l1 : List ExecutionResult) (f : ExecutionResult)
    (l2 : List ExecutionResult) (le : Option String)
    (hf : f.success = false) (h2 : ∀ x ∈ l2, x.success = true) :
    (l1 ++ f :: l2).foldl (fun acc r => if r.success then acc else r.error) le =
      f.error := by
  rw [List.foldl_append]
  simp only [List.foldl_cons, hf, if_false]
  exact lastError_foldl_all_ok l2 f.error h2

/-- C5: with `continueOnError = false` (the default) the first failing result
stops the replay immediately and `executeSkill` returns `success = false` with
the partial executed list; with `continueOnError = true` the engine never
reports overall failure on the normal path, keeps executing past failures
(every result is recorded), and still surfaces the last failure's error. -/
theorem C5_replay_continue_on_error :
    (∀ (skill : Skill) (outcome : Nat → StepOutcome) (now : Nat)
        (l1 : List ExecutionResult) (r : ExecutionResult) (rest : List StepOutcome)
        (e : String),
      (List.range skill.actions.length).map outcome = l1.map .ok ++ .ok r :: rest →
      (∀ x ∈ l1, x.success = true) → r.success = false → r.error = some e → e ≠ "" →
      (executeSkill skill none outcome { continueOnError := false } now).1 =
        { success := false, executedActions := l1 ++ [r], error := some e }) ∧
    (∀ (skill : Skill) (navOutcome : Option String) (outcome : Nat → StepOutcome)
        (now : Nat),
      skill.startUrl = none ∨ navOutcome = none →
      (executeSkill skill navOutcome outcome { continueOnError := true } now).1.success
        = true) ∧
    (∀ (skill : Skill) (outcome : Nat → StepOutcome) (now : Nat)
        (l1 : List ExecutionResult) (f : ExecutionResult) (l2 : List ExecutionResult),
      (List.range skill.actions.length).map outcome = (l1 ++ f :: l2).map .ok →
      f.success = false → (∀ x ∈ l2, x.success = true) →
      (executeSkill skill none outcome { continueOnError := true } now).1 =
        { success := true, executedActions := l1 ++ f :: l2, error := f.error }) := by
  refine ⟨?_, ?_, ?_⟩
  · intro skill outcome now l1 r rest e heq h1 hr herr hne
    simp only [executeSkill, heq]
    rw [skillLoop_stop_first_fail l1 r rest none h1 hr]
    simp [herr, strFalsy, hne]
  · intro skill navOutcome outcome now hnav
    rcases hnav with h | h <;>
      · simp only [executeSkill, h]
        cases hs : skill.startUrl <;> cases hn : navOutcome <;>
          simp_all [executeSkill]
  · intro skill outcome now l1 f l2 heq hf h2
    simp only [executeSkill, heq]
    rw [skillLoop_true_all_ok]
    rw [lastError_foldl_last_fail l1 f l2 none hf h2]
    simp

/-- C5 witness: a two-action skill whose second result fails stops a default
replay with the partial list, while `continueOnError = true` reports overall
success with the error still surfaced. -/
theorem C5_replay_continue_on_error_witness :
    (executeSkill { actions := [goBackAction, goBackAction] } none
        (fun i => if i = 0 then .ok { success := true, action := goBackAction }
                  else .ok { success := false, action := goBackAction,
                             error := some "Element not found" })
        { continueOnError := false } 0).1 =
      { success := false,
        executedActions :=
          [{ success := true, action := goBackAction },
           { success := false, action := goBackAction,
             error := some "Element not found" }],
        error := some "Element not found" } ∧
    (executeSkill { actions := [goBackAction, goBackAction] } none
        (fun i => if i = 0 then .ok { success := true, action := goBackAction }
                  else .ok { success := false, action := goBackAction,
                             error := some "Element not found" })
        { continueOnError := true } 0).1 =
      { success := true,
        executedActions :=
          [{ success := true, action := goBackAction },
           { success := false, action := goBackAction,
             error := some "Element not found" }],
        error := some "Element not found" } := by
  constructor
  · have h := C5_replay_continue_on_error.1 { actions := [goBackAction, goBackAction] }
      (fun i => if i = 0 then .ok { success := true, action := goBackAction }
                else .ok { success := false, action := goBackAction,
                           error := some "Element not found" })
      0 [{ success := true, action := goBackAction }]
      { success := false, action := goBackAction, error := some "Element not found" }
      [] "Element not found" rfl (by decide) rfl rfl (by decide)
    simpa using h
  · have h := C5_replay_continue_on_error.2.2 { actions := [goBackAction, goBackAction] }
      (fun i => if i = 0 then .ok { success := true, action := goBackAction }
                else .ok { success := false, action := goBackAction,
                           error := some "Element not found" })
      0 [{ success := true, action := goBackAction }]
      { success := false, action := goBackAction, error := some "Element not found" }
      [] rfl rfl (by simp)
    simpa using h

/-! ## Loop-iteration lemmas shared by several claims -/

/-- When the give-up heuristic fires, the iteration fails the agent and
returns without consulting any collaborator beyond the clock. -/
theorem loopIter_gives_up (env : LoopEnv) (s : AgentState)
    (hgu : (shouldGiveUp s.actionHistory).giveUp = true) :
    loopIter env s =
      .halt (failAgent { s with iteration := s.iteration + 1 }
        (shouldGiveUp s.actionHistory).reason env.now) := by
  simp [loopIter, hgu]

/-- When the heuristic does not fire and the planner's response carries no
action, the iteration completes the agent, storing the freshly captured
context snapshot as the agent's result; nothing is appended to the history. -/
theorem loopIter_no_action (env : LoopEnv) (s : AgentState)
    (hgu : (shouldGiveUp s.actionHistory).giveUp = false)
    (ha : (env.planner (s.iteration + 1)).action = none) :
    loopIter env s =
      .halt (completeAgentState
        { s with iteration := s.iteration + 1, status := AgentStatus.planning,
                 currentContext := some (env.ctx (s.iteration + 1)) }
        (some (.contextValue (env.ctx (s.iteration + 1)))) env.now) := by
  cases hb : (env.planner (s.iteration + 1)).goalAchieved <;>
    simp [loopIter, hgu, ha, hb]

/-- When the heuristic does not fire and the planner proposes an action
without signalling achievement, the iteration executes it, appends its single
result to the history and continues the loop. -/
theorem loopIter_executes (env : LoopEnv) (s : AgentState) (a : AgentAction)
    (hgu : (shouldGiveUp s.actionHistory).giveUp = false)
    (ha : (env.planner (s.iteration + 1)).action = some a)
    (hg : (env.planner (s.iteration + 1)).goalAchieved = false) :
    loopIter env s =
      .next { s with iteration := s.iteration + 1, status := AgentStatus.executing,
                     currentContext := some (env.ctx (s.iteration + 1)),
                     currentAction := none,
                     actionHistory :=
                       s.actionHistory ++ [env.exec (s.iteration + 1) a] } := by
  simp [loopIter, hgu, ha, hg]

/-! ## C7 -/

/-- C7: at the start of a loop iteration, if the last five results in the
history are all failures, or the last three results carry actions identical in
kind and parameters, the agent transitions to `failed` with one of the two
descriptive reasons — and the planning oracle plays no part in the outcome
(the iteration's result is the same under every planner). -/
theorem C7_give_up_heuristic (env : LoopEnv) (s : AgentState)
    (_hcond : loopCond s = true)
    (htrig :
      (5 ≤ s.actionHistory.length ∧
        (s.actionHistory.drop (s.actionHistory.length - 5)).all
          (fun r => ¬r.success) = true) ∨
      (∃ r0 rest, s.actionHistory.drop (s.actionHistory.length - 3) = r0 :: rest ∧
        3 ≤ s.actionHistory.length ∧
        (r0 :: rest).all (fun r => r.action.ty = r0.action.ty) = true ∧
        (r0 :: rest).all (fun r => r.action.parameters = r0.action.parameters) = true)) :
    (shouldGiveUp s.actionHistory).giveUp = true ∧
    ((shouldGiveUp s.actionHistory).reason =
        "Last 5 actions failed - unable to make progress" ∨
      (shouldGiveUp s.actionHistory).reason =
        "Stuck in a loop - repeating the same action") ∧
    loopIter env s =
      .halt (failAgent { s with iteration := s.iteration + 1 }
        (shouldGiveUp s.actionHistory).reason env.now) ∧
    (∀ planner', loopIter { env with planner := planner' } s = loopIter env s) := by
  have hmain : (shouldGiveUp s.actionHistory).giveUp = true ∧
      ((shouldGiveUp s.actionHistory).reason =
          "Last 5 actions failed - unable to make progress" ∨
        (shouldGiveUp s.actionHistory).reason =
          "Stuck in a loop - repeating the same action") := by
    rcases htrig with ⟨hlen, hall⟩ | ⟨r0, rest, hdrop, hlen, hty, hpar⟩
    · constructor <;>
        · simp only [shouldGiveUp]
          split
          · simp
          · rename_i hcond
            exact absurd ⟨by rw [List.length_drop]; omega, hall⟩ hcond
    · constructor <;>
        · simp only [shouldGiveUp]
          split
          · simp
          · rw [hdrop]
            simp [hlen, hty, hpar]
  refine ⟨hmain.1, hmain.2, loopIter_gives_up env s hmain.1, ?_⟩
  intro planner'
  rw [loopIter_gives_up env s hmain.1,
    loopIter_gives_up { env with planner := planner' } s hmain.1]

/-- C7 witness: five consecutive failures trigger the transition to `failed`
with the progress reason, independently of the planner. -/
theorem C7_give_up_heuristic_witness :
    (shouldGiveUp (List.replicate 5 (createErrorResult goBackAction "x"))).giveUp
      = true ∧
    loopIter parseFailureEnv
        { status := .planning,
          actionHistory := List.replicate 5 (createErrorResult goBackAction "x") } =
      .halt (failAgent
        { status := .planning,
          actionHistory := List.replicate 5 (createErrorResult goBackAction "x"),
          iteration := 1 }
        (shouldGiveUp (List.replicate 5 (createErrorResult goBackAction "x"))).reason
        0) := by
  have h := C7_give_up_heuristic parseFailureEnv
    { status := .planning,
      actionHistory := List.replicate 5 (createErrorResult goBackAction "x") }
    (by decide) (Or.inl (by decide))
  exact ⟨h.1, h.2.2.1⟩

/-! ## C6 -/

/-- C6 counterexample: replaying even an empty skill through `executeSkill`
changes the skill's stored usage metadata — the engine itself bumps
`useCount` and stamps `lastUsedAt`. -/
theorem C6_counterexample :
    (executeSkill emptySkill none (fun _ => .thrown "unused") {} 42).2.metadata ≠
      emptySkill.metadata ∧
    (executeSkill emptySkill none (fun _ => .thrown "unused") {} 42).2.metadata =
      { useCount := 1, lastUsedAt := some 42 } := by
  decide

/-- C6 amended: on every non-throwing replay path, `executeSkill` itself — not
its caller — sets `lastUsedAt` to the current time, increments `useCount` by
one, and persists the updated skill, whatever the per-action outcomes and
options were. -/
theorem C6_usage_metadata_updated_by_engine (skill : Skill)
    (navOutcome : Option String) (outcome : Nat → StepOutcome)
    (opts : SkillExecutionOptions) (now : Nat)
    (hnav : skill.startUrl = none ∨ navOutcome = none) :
    (executeSkill skill navOutcome outcome opts now).2.metadata =
      { useCount := skill.metadata.useCount + 1, lastUsedAt := some now } := by
  cases hs : skill.startUrl with
  | none => cases navOutcome <;> simp [executeSkill, hs]
  | some u =>
    have hn : navOutcome = none := by
      rcases hnav with h | h
      · rw [hs] at h
        exact absurd h (by simp)
      · exact h
    simp [executeSkill, hs, hn]

/-- C6 witness: the amended theorem at the empty skill. -/
theorem C6_usage_metadata_updated_by_engine_witness :
    (executeSkill emptySkill none (fun _ => .ok (executeComplete goBackAction))
        {} 7).2.metadata =
      { useCount := 1, lastUsedAt := some 7 } :=
  C6_usage_metadata_updated_by_engine emptySkill none
    (fun _ => .ok (executeComplete goBackAction)) {} 7 (Or.inl rfl)

/-! ## C2 -/

/-- C2 counterexample: `stopAgent` has no status guard, so it is accepted on a
`completed` agent and moves it out of the terminal status to `stopped`. -/
theorem C2_counterexample :
    completedState.status = AgentStatus.completed ∧
    (stopAgent completedState 7).status = AgentStatus.stopped ∧
    (stopAgent completedState 7).status ≠ AgentStatus.completed := by
  decide

/-- C2 amended: `start`/`pause`/`resume` reject every terminal status with an
`InvalidStateTransition`-style error and leave the state alone, but `stop` is
accepted from any status whatsoever — including the terminal ones — and always
sets `stopped` while recording `completedAt`. -/
theorem C2_terminal_statuses (s : AgentState) (now : Nat)
    (hterm : s.status = AgentStatus.completed ∨ s.status = AgentStatus.failed ∨
      s.status = AgentStatus.stopped) :
    startAgent s now = .error ("Agent cannot be started from status " ++ s.status.str) ∧
    pauseAgent s = .error ("Agent cannot be paused from status " ++ s.status.str) ∧
    resumeAgent s = .error ("Agent cannot be resumed from status " ++ s.status.str) ∧
    (stopAgent s now).status = AgentStatus.stopped ∧
    (stopAgent s now).completedAt = some now := by
  rcases hterm with h | h | h <;>
    simp [startAgent, pauseAgent, resumeAgent, stopAgent, h]

/-- C2 witness: the amended theorem at a completed agent. -/
theorem C2_terminal_statuses_witness :
    startAgent completedState 7 =
      .error "Agent cannot be started from status completed" ∧
    (stopAgent completedState 7).status = AgentStatus.stopped :=
  ⟨(C2_terminal_statuses completedState 7 (Or.inl rfl)).1,
   (C2_terminal_statuses completedState 7 (Or.inl rfl)).2.2.2.1⟩

/-! ## C1 -/

/-- C1 counterexample: a planning response that fails to parse does yield the
zero-confidence fallback, but the Agent Loop then COMPLETES the agent (a null
action is read as goal achievement): the run terminates with status
`completed` after one iteration and records nothing — it does not record a
planning failure and continue. -/
theorem C1_counterexample :
    (parseResponse (.error "Unexpected token")).confidence = 0 ∧
    (parseResponse (.error "Unexpected token")).goalAchieved = false ∧
    (parseResponse (.error "Unexpected token")).action = none ∧
    (runLoop parseFailureEnv 51 startedState).status = AgentStatus.completed ∧
    (runLoop parseFailureEnv 51 startedState).actionHistory = [] ∧
    (runLoop parseFailureEnv 51 startedState).iteration = 1 := by
  decide

/-- C1 amended: every oracle response that fails to parse or violates the
contract makes `parseResponse` return the zero-confidence non-achieving
fallback with no action; the Agent Loop, however, treats any response without
an action as goal achievement — it completes the agent with the captured
context snapshot as result and ends the run, appending nothing to the history,
instead of recording a planning failure and continuing. -/
theorem C1_parse_failure_completes_agent :
    (∀ msg : String, parseResponse (.error msg) = parseFailureResponse msg) ∧
    (∀ (v : JValue) (e : String), parseResponseChecks v = .error e →
      parseResponse (.ok v) = parseFailureResponse e) ∧
    (∀ msg : String,
      (parseFailureResponse msg).confidence = 0 ∧
      (parseFailureResponse msg).goalAchieved = false ∧
      (parseFailureResponse msg).action = none) ∧
    (∀ (env : LoopEnv) (s : AgentState),
      (shouldGiveUp s.actionHistory).giveUp = false →
      (env.planner (s.iteration + 1)).action = none →
      loopIter env s =
        .halt (completeAgentState
          { s with iteration := s.iteration + 1, status := AgentStatus.planning,
                   currentContext := some (env.ctx (s.iteration + 1)) }
          (some (.contextValue (env.ctx (s.iteration + 1)))) env.now)) := by
  refine ⟨fun msg => rfl, ?_, fun msg => ⟨rfl, rfl, rfl⟩, ?_⟩
  · intro v e he
    simp [parseResponse, he]
  · intro env s hgu ha
    exact loopIter_no_action env s hgu ha

/-- C1 witness: the amended theorem applied to the parse-failure environment —
the first iteration completes the agent with the context snapshot as result. -/
theorem C1_parse_failure_completes_agent_witness :
    loopIter parseFailureEnv startedState =
      .halt (completeAgentState
        { startedState with iteration := 1, status := AgentStatus.planning,
                            currentContext := some ctxFixture }
        (some (.contextValue ctxFixture)) 0) := by
  have h := C1_parse_failure_completes_agent.2.2.2 parseFailureEnv startedState
    (by decide) (by decide)
  simpa using h

/-! ## C9 -/

/-- C9 counterexample: a `complete` action proposed by the planner is executed
as a success and the loop RUNS ON — a second iteration happens — and when the
agent completes, its result payload is the context snapshot, not the
`complete` action's parameters: the claim's "terminal" and "parameters become
the agent's result payload" both fail on this run. -/
theorem C9_counterexample :
    (runLoop completeScenarioEnv 52 startedState).status = AgentStatus.completed ∧
    (runLoop completeScenarioEnv 52 startedState).actionHistory =
      [executeComplete completeFixtureAction] ∧
    (runLoop completeScenarioEnv 52 startedState).iteration = 2 ∧
    (runLoop completeScenarioEnv 52 startedState).result ≠
      some (.completionPayload completeFixtureAction.parameters.reason
        completeFixtureAction.parameters.dataText) := by
  decide

/-- C9 amended: `executeComplete` is a pure no-op success whose data is the
`{reason, result}` payload; the executor performs exactly one dispatch for a
`complete` action (never retried, no backoff) from any starting retry count;
but a planner-proposed action — `complete` included — only gets its single
result appended to the history while the loop continues, and when the planner
later signals achievement the agent's result payload is the context snapshot,
not the `complete` action's parameters. -/
theorem C9_complete_action (cfg : AgentConfig) (urlParses : String → Bool)
    (a : AgentAction) (r : Nat) (ha : a.ty = ActionType.complete) :
    executeAction cfg urlParses (completeDispatch a) a r =
      { result := executeComplete a, dispatchCount := 1, backoffs := [] } ∧
    (executeComplete a).success = true ∧
    (executeComplete a).data =
      some (.completePayload a.parameters.reason a.parameters.dataText) ∧
    (∀ (env : LoopEnv) (s : AgentState) (act : AgentAction) (c : Int) (re : String),
      (shouldGiveUp s.actionHistory).giveUp = false →
      env.planner (s.iteration + 1) =
        { action := some act, goalAchieved := false, confidence := c, reasoning := re } →
      loopIter env s =
        .next { s with iteration := s.iteration + 1, status := AgentStatus.executing,
                       currentContext := some (env.ctx (s.iteration + 1)),
                       currentAction := none,
                       actionHistory :=
                         s.actionHistory ++ [env.exec (s.iteration + 1) act] }) ∧
    (∀ (env : LoopEnv) (s : AgentState),
      (shouldGiveUp s.actionHistory).giveUp = false →
      (env.planner (s.iteration + 1)).action = none →
      loopIter env s =
        .halt (completeAgentState
          { s with iteration := s.iteration + 1, status := AgentStatus.planning,
                   currentContext := some (env.ctx (s.iteration + 1)) }
          (some (.contextValue (env.ctx (s.iteration + 1)))) env.now)) := by
  obtain ⟨ty, p, re⟩ := a
  cases ha
  refine ⟨?_, rfl, rfl, ?_, ?_⟩
  · rw [executeAction]
    simp [validateAction, completeDispatch, executeComplete]
  · intro env s act c re' hgu hresp
    exact loopIter_executes env s act hgu (by rw [hresp]) (by rw [hresp])
  · intro env s hgu hnone
    exact loopIter_no_action env s hgu hnone

/-- C9 witness: the theorem applied to the fixture `complete` action — one
dispatch, a success result carrying the `{reason, result}` payload. -/
theorem C9_complete_action_witness :
    executeAction {} (fun _ => true) (completeDispatch completeFixtureAction)
        completeFixtureAction 0 =
      { result := executeComplete completeFixtureAction, dispatchCount := 1,
        backoffs := [] } ∧
    (executeComplete completeFixtureAction).success = true :=
  ⟨(C9_complete_action {} (fun _ => true) completeFixtureAction 0 rfl).1,
   (C9_complete_action {} (fun _ => true) completeFixtureAction 0 rfl).2.1⟩

end Blueberry
